import Mathlib

/-!
Shallow embedding of the passage-bot core (`src/bot.py`): the chunker
`split_into_chunks`, the source adapters `fetch_gutenberg` / `fetch_api_text`,
the resolver `get_passages`, and the query commands `quote`, `random_passage`,
`search`.  Python strings are modelled as `List Char`; the process state
(the in-memory `TEXTS` catalog and the on-disk `texts/` cache) is threaded
explicitly; network responses are supplied by an environment record;
raised Python exceptions are modelled with `Except`.
-/

set_option maxRecDepth 10000

/-- A Python string, modelled as its list of characters. -/
abbrev Str := List Char

/-- Python `str.strip()` truthiness-relevant whitespace test. -/
def isWS (c : Char) : Bool := c.isWhitespace

/-- Python `s.strip()`: drop leading and trailing whitespace. -/
def pyStrip (l : Str) : Str :=
  ((l.dropWhile isWS).reverse.dropWhile isWS).reverse

/-- Python `s.lower()` (per-character lowering). -/
def pyLower (l : Str) : Str := l.map Char.toLower

/-- Python `needle in hay` substring containment for strings. -/
def pyContains (hay needle : Str) : Bool :=
  needle.isPrefixOf hay ||
    match hay with
    | [] => false
    | _ :: t => pyContains t needle

/-- Python `raw.split("\n\n")`: split on each occurrence of two consecutive
newlines, leftmost first, like `str.split` with a literal separator. -/
def splitPar : Str → List Str
  | [] => [[]]
  | '\n' :: '\n' :: rest => [] :: splitPar rest
  | c :: rest =>
    match splitPar rest with
    | [] => [[c]]
    | p :: ps => (c :: p) :: ps

/-- Index (within `l`) of the last occurrence of a space character. -/
def lastSpaceIdx : Str → Option Nat
  | [] => none
  | c :: rest =>
    match lastSpaceIdx rest with
    | some j => some (j + 1)
    | none => if c = ' ' then some 0 else none

/-- Python slice `l[a:b]`. -/
def sliceChars (l : Str) (a b : Nat) : Str := (l.drop a).take (b - a)

/-- Python `text.rfind(" ", a, b)`, as an `Option` instead of `-1`:
the largest index `i` with `a ≤ i < b` and `text[i] = ' '`. -/
def rfindSpace (l : Str) (a b : Nat) : Option Nat :=
  match lastSpaceIdx (sliceChars l a b) with
  | none => none
  | some j => some (j + a)

/-- One run of the `while start < len(text)` loop of `split_into_chunks`
(bot.py lines 52-63), with explicit fuel.  Each iteration either cuts at the
last space of the `maxLen` window (falling back to a hard cut when the window
has no space) and sets the cursor to the cut position, or appends the stripped
tail and stops.  `none` means the fuel ran out. -/
def splitGo (text : Str) (maxLen : Nat) : Nat → Nat → List Str → Option (List Str)
  | 0, _, _ => none
  | fuel + 1, start, acc =>
    if start < text.length then
      if start + maxLen < text.length then
        splitGo text maxLen fuel
          ((rfindSpace text start (start + maxLen)).getD (start + maxLen))
          (acc ++ [pyStrip (sliceChars text start
            ((rfindSpace text start (start + maxLen)).getD (start + maxLen)))])
      else
        some (acc ++ [pyStrip (text.drop start)])
    else some acc

/-- `split_into_chunks` (bot.py lines 46-64).  The Python loop is run with
fuel `text.length + 2`: when every iteration advances the cursor the loop
takes at most `text.length + 1` iterations, and when some iteration fails to
advance the cursor the loop state repeats forever, so `none` holds exactly
when the Python loop never terminates. -/
def split_into_chunks (text : Str) (maxLen : Nat) : Option (List Str) :=
  if text.length ≤ maxLen then some [text]
  else splitGo text maxLen (text.length + 2) 0 []

/-- Association-list lookup with decidable string keys, modelling Python
dict indexing. -/
def alookup (k : Str) : List (Str × α) → Option α
  | [] => none
  | (k', v) :: t => if k' = k then some v else alookup k t

/-- Python dict assignment `d[k] = v`: replace in place when the key is
present, append otherwise. -/
def dictSet : List (Str × α) → Str → α → List (Str × α)
  | [], k, v => [(k, v)]
  | (k', v') :: t, k, v =>
    if k' = k then (k, v) :: t else (k', v') :: dictSet t k v

/-- A parsed JSON value, as returned by `resp.json()`. -/
inductive Json where
  | str (s : Str)
  | num (n : Int)
  | arr (elems : List Json)
  | obj (fields : List (Str × Json))
  | null

/-- A raised Python exception (including transport errors of the HTTP
client, which `bot.py` never catches). -/
inductive PyErr where
  | keyError
  | typeError
  | valueError
  | netError
deriving DecidableEq

/-- Python `str(v)` as used by f-string interpolation.  The API fields
formatted by `bot.py` are strings and numbers; the rendering of nested
containers is abbreviated here. -/
def pyStr : Json → Str
  | .str s => s
  | .num n => (toString n).toList
  | .null => "None".toList
  | .arr _ => "[json]".toList
  | .obj _ => "[json]".toList

/-- Python `d[k]` on a parsed JSON value: `KeyError` for a missing field of
an object, `TypeError` when subscripting a non-object with a string key. -/
def jsub (j : Json) (k : Str) : Except PyErr Json :=
  match j with
  | .obj fs =>
    match alookup k fs with
    | some v => .ok v
    | none => .error .keyError
  | _ => .error .typeError

/-- One entry of the in-memory `TEXTS` catalog:
`{"type": "local"/"api", "passages": [...]}`. -/
structure TextEntry where
  source : Str
  passages : List Str
deriving DecidableEq

/-- One on-disk record `texts/<key>.json`, the JSON object
`{"title": ..., "passages": [...]}` written by `fetch_gutenberg`. -/
structure DiskRec where
  title : Str
  passages : List Str
deriving DecidableEq

/-- The mutable process state: the `TEXTS` catalog, the `texts/` cache
directory, and counters for the observable I/O (network GETs issued and
cache files read). -/
structure Sys where
  texts : List (Str × TextEntry)
  disk : List (Str × DiskRec)
  fetches : Nat
  diskReads : Nat
deriving DecidableEq

/-- The empty state at process start. -/
def sys0 : Sys := ⟨[], [], 0, 0⟩

/-- The world outside the process: the body served for each flat-file URL
and the parsed JSON (or raised transport/parse error) for each API URL. -/
structure Env where
  gutenbergBody : Str → Str
  apiResponse : Str → Except PyErr Json

/-- `GUTENBERG_TEXTS` (bot.py lines 21-25), in insertion order. -/
def GUTENBERG_TEXTS : List (Str × Str) :=
  [("Bhagavad Gita".toList, "https://www.gutenberg.org/files/2388/2388-0.txt".toList),
   ("Upanishads".toList, "https://www.gutenberg.org/files/23455/23455-0.txt".toList),
   ("Dhammapada".toList, "https://www.gutenberg.org/files/159/159-0.txt".toList)]

/-- `API_TEXTS` (bot.py lines 27-33), in insertion order. -/
def API_TEXTS : List (Str × Str) :=
  [("World English Bible".toList, "bible-api".toList),
   ("KJV".toList, "bible-api".toList),
   ("Tanakh (JPS 1917)".toList, "sefaria".toList),
   ("Quran (Pickthall)".toList, "alquran".toList),
   ("Book of Mormon".toList, "nephi".toList)]

def bibleApiUrl : Str := "https://bible-api.com/Genesis".toList
def sefariaUrl : Str := "https://www.sefaria.org/api/texts/Genesis.1?lang=bi".toList
def alquranUrl : Str := "https://api.alquran.cloud/v1/surah/1/en.pickthall".toList
def nephiUrl : Str := "https://api.nephi.org/book_of_mormon/1".toList

/-- The cache key of a title: spaces replaced by underscores (the `.json`
suffix of the file name is a constant and is left off the key). -/
def underscoreKey (t : Str) : Str := t.map (fun c => if c = ' ' then '_' else c)

/-- `fetch_gutenberg` (bot.py lines 66-82): serve the cached `texts/` record
when present, otherwise download the raw body, split it on blank lines,
strip each piece, drop whitespace-only pieces, and write the record. -/
def fetch_gutenberg (env : Env) (s : Sys) (title url : Str) : Sys × List Str :=
  match alookup (underscoreKey title) s.disk with
  | some rec => ({ s with diskReads := s.diskReads + 1 }, rec.passages)
  | none =>
    let raw := env.gutenbergBody url
    let lines := ((splitPar raw).map pyStrip).filter (fun l => !l.isEmpty)
    ({ s with fetches := s.fetches + 1,
              disk := dictSet s.disk (underscoreKey title) ⟨title, lines⟩ },
     lines)

/-- The `{"title": ..., "passages": [...]}` dict returned by
`fetch_api_text`. -/
structure ApiResult where
  title : Str
  passages : List Str

/-- The verse list built from a bible-api response (bot.py lines 93-96):
skipped entirely when the `"verses"` field is absent, otherwise one line
`"{book_name} {chapter}:{verse} {text}"` per verse object, raising on a
verse object missing a field.  (The provider returns a JSON object; a
non-object response is modelled as the no-`"verses"` case.) -/
def bibleVerses (data : Json) : Except PyErr (List Str) :=
  match data with
  | .obj fs =>
    match alookup ("verses".toList) fs with
    | none => .ok []
    | some (.arr vs) =>
      vs.mapM (fun v => do
        let b ← jsub v ("book_name".toList)
        let c ← jsub v ("chapter".toList)
        let ve ← jsub v ("verse".toList)
        let t ← jsub v ("text".toList)
        pure (pyStr b ++ [' '] ++ pyStr c ++ [':'] ++ pyStr ve ++ [' '] ++ pyStr t))
    | some _ => .error .typeError
  | _ => .ok []

/-- The passage list of a Sefaria response: `data.get("text", [])`
(bot.py line 104).  Python stores the raw JSON array; the embedding keeps
its elements as strings (the provider returns strings), and treats the
shapes Python cannot iterate as strings as a type error. -/
def sefariaPassages (data : Json) : Except PyErr (List Str) :=
  match data with
  | .obj fs =>
    match alookup ("text".toList) fs with
    | none => .ok []
    | some (.arr xs) => .ok (xs.map pyStr)
    | some _ => .error .typeError
  | _ => .error .typeError

/-- The passage list of an alquran.cloud response:
`[ay['text'] for ay in data['data']['ayahs']]` (bot.py line 111). -/
def quranPassages (data : Json) : Except PyErr (List Str) := do
  let d ← jsub data ("data".toList)
  let ay ← jsub d ("ayahs".toList)
  match ay with
  | .arr l => l.mapM (fun a => do let t ← jsub a ("text".toList); pure (pyStr t))
  | _ => .error .typeError

/-- The passage list of a nephi.org response:
`[v['text'] for v in data['verses']]` (bot.py line 118). -/
def nephiPassages (data : Json) : Except PyErr (List Str) := do
  let vs ← jsub data ("verses".toList)
  match vs with
  | .arr l => l.mapM (fun v => do let t ← jsub v ("text".toList); pure (pyStr t))
  | _ => .error .typeError

/-- `fetch_api_text` (bot.py lines 84-120): one `session.get` per call on
the branch chosen by the title, then the provider-specific mapping of the
parsed JSON; a transport error or a missing-field error propagates as a
raised exception.  The final catch-all returns an empty passage list. -/
def fetch_api_text (env : Env) (s : Sys) (title : Str) : Sys × Except PyErr ApiResult :=
  if title = "World English Bible".toList ∨ title = "KJV".toList then
    ({ s with fetches := s.fetches + 1 },
     match env.apiResponse bibleApiUrl with
     | .error e => .error e
     | .ok data => (bibleVerses data).map (fun vs => ⟨title, vs⟩))
  else if title = "Tanakh (JPS 1917)".toList then
    ({ s with fetches := s.fetches + 1 },
     match env.apiResponse sefariaUrl with
     | .error e => .error e
     | .ok data => (sefariaPassages data).map (fun ps => ⟨title, ps⟩))
  else if title = "Quran (Pickthall)".toList then
    ({ s with fetches := s.fetches + 1 },
     match env.apiResponse alquranUrl with
     | .error e => .error e
     | .ok data => (quranPassages data).map (fun ps => ⟨title, ps⟩))
  else if title = "Book of Mormon".toList then
    ({ s with fetches := s.fetches + 1 },
     match env.apiResponse nephiUrl with
     | .error e => .error e
     | .ok data => (nephiPassages data).map (fun ps => ⟨title, ps⟩))
  else (s, .ok ⟨title, []⟩)

/-- `get_passages` (bot.py lines 125-140): strip the title, serve from the
`TEXTS` catalog when present, otherwise resolve through the matching
adapter family, populate the catalog, and return the passage list; an
unknown title yields the empty list. -/
def get_passages (env : Env) (s : Sys) (title : Str) : Sys × Except PyErr (List Str) :=
  let key := pyStrip title
  match alookup key s.texts with
  | some entry => (s, .ok entry.passages)
  | none =>
    match alookup key GUTENBERG_TEXTS with
    | some url =>
      let r := fetch_gutenberg env s key url
      ({ r.1 with texts := dictSet r.1.texts key ⟨"local".toList, r.2⟩ }, .ok r.2)
    | none =>
      match alookup key API_TEXTS with
      | some _ =>
        let r := fetch_api_text env s key
        match r.2 with
        | .ok res =>
          ({ r.1 with texts := dictSet r.1.texts key ⟨"api".toList, res.passages⟩ },
           .ok res.passages)
        | .error e => (r.1, .error e)
      | none => (s, .ok [])

/-- Decimal rendering of a natural number, as Python `str(i)`. -/
def natStr (n : Nat) : Str := (toString n).toList

/-- Decimal rendering of a Python integer. -/
def intStr (n : Int) : Str := (toString n).toList

/-- `format_passage` (bot.py lines 122-123):
`f"**{title} — Passage {number}**\n{text}"`. -/
def format_passage (title numStr text : Str) : Str :=
  "**".toList ++ title ++ " — Passage ".toList ++ numStr ++ "**\n".toList ++ text

/-- The `for i, chunk in enumerate(chunks, start=1)` send loop shared by
`quote` and `random_passage` (bot.py lines 176-177): each chunk is sent as a
formatted passage, numbered `"{n} part {i}"` when there is more than one
chunk. -/
def fmtEnum (title numStr : Str) (total : Nat) : Nat → List Str → List Str
  | _, [] => []
  | i, c :: rest =>
    format_passage title
      (if total = 1 then numStr else numStr ++ " part ".toList ++ natStr i) c
      :: fmtEnum title numStr total (i + 1) rest

/-- Chunk a selected passage with `split_into_chunks` (at the Discord limit
of 2000) and format each chunk; `none` when the chunker never returns. -/
def sendChunks (title numStr text : Str) : Option (List Str) :=
  match split_into_chunks text 2000 with
  | none => none
  | some chunks => some (fmtEnum title numStr chunks.length 1 chunks)

/-- The reply of one `quote` invocation: the not-found message, the
invalid-number message, or the sequence of sent chunk messages (`none`
inside `sent` when the chunker diverges). -/
inductive QuoteOutcome where
  | notFound
  | outOfRange
  | sent (msgs : Option (List Str))
deriving DecidableEq

/-- `quote` (bot.py lines 164-177): resolve the title, report not-found on
an empty passage list, report an invalid number outside `[1, len]`, else
send `passages[number-1]` chunked.  A raised exception propagates. -/
def quote (env : Env) (s : Sys) (title : Str) (number : Int) :
    Sys × Except PyErr QuoteOutcome :=
  match get_passages env s title with
  | (s', .error e) => (s', .error e)
  | (s', .ok ps) =>
    if ps = [] then (s', .ok .notFound)
    else if number < 1 ∨ (ps.length : Int) < number then (s', .ok .outOfRange)
    else (s', .ok (.sent (sendChunks title (intStr number)
      (ps.getD ((number - 1).toNat) []))))

/-- Python `random.randrange(n)`: a uniform draw from `[0, n)`, raising
`ValueError` when the range is empty.  The pseudo-random source is modelled
by the ambient seed, reduced modulo the range. -/
def randrange (seed n : Nat) : Except PyErr Nat :=
  if n = 0 then .error .valueError else .ok (seed % n)

/-- The known-title list `list(GUTENBERG_TEXTS.keys()) + list(API_TEXTS.keys())`
(bot.py line 194). -/
def allTitles : List Str := GUTENBERG_TEXTS.map Prod.fst ++ API_TEXTS.map Prod.fst

/-- Python `random.choice(all_titles)` under the title seed. -/
def rpChoice (seedT : Nat) : Str := allTitles.getD (seedT % allTitles.length) []

/-- The reply of one `random_passage` invocation. -/
inductive RPOutcome where
  | notFound
  | sent (msgs : Option (List Str))
deriving DecidableEq

/-- `random_passage` (bot.py lines 179-201).  A present, non-empty title
argument (Python truthiness of `text_title`) resolves that title, reports
not-found on an empty passage list, and sends a uniformly drawn passage;
with no (or an empty-string) title argument a title is drawn from the known
set and its passage list is indexed with no emptiness check, so
`random.randrange(0)` raises `ValueError` on an empty sequence. -/
def random_passage (env : Env) (s : Sys) (titleArg : Option Str)
    (seedT seedI : Nat) : Sys × Except PyErr RPOutcome :=
  let explicitTitle : Option Str :=
    match titleArg with
    | some t => if t = [] then none else some t
    | none => none
  match explicitTitle with
  | some t =>
    match get_passages env s t with
    | (s', .error e) => (s', .error e)
    | (s', .ok ps) =>
      if ps = [] then (s', .ok .notFound)
      else
        match randrange seedI ps.length with
        | .error e => (s', .error e)
        | .ok idx =>
          (s', .ok (.sent (sendChunks t (natStr (idx + 1)) (ps.getD idx []))))
  | none =>
    let t := rpChoice seedT
    match get_passages env s t with
    | (s', .error e) => (s', .error e)
    | (s', .ok ps) =>
      match randrange seedI ps.length with
      | .error e => (s', .error e)
      | .ok idx =>
        (s', .ok (.sent (sendChunks t (natStr (idx + 1)) (ps.getD idx []))))

/-- The snippet of one search hit (bot.py line 211):
`p[:300].rsplit(" ", 1)[0]`, everything of the first 300 characters up to
(and excluding) their last space — the whole 300-character prefix when it
has no space — with `"..."` appended exactly when the passage itself is
longer than 300 characters. -/
def rsplitHead1 (l : Str) : Str :=
  match l.reverse.dropWhile (fun c => c ≠ ' ') with
  | [] => l
  | _ :: rest => rest.reverse

/-- The rendered snippet of a matching passage. -/
def snippet (p : Str) : Str :=
  rsplitHead1 (p.take 300) ++ (if 300 < p.length then "...".toList else [])

/-- One rendered search hit (bot.py line 212):
`f"**{title} — Passage {i}**\n{snippet}"`. -/
def renderMatch (title : Str) (i : Nat) (p : Str) : Str :=
  "**".toList ++ title ++ " — Passage ".toList ++ natStr i ++ "**\n".toList ++ snippet p

/-- The inner loop of `search` (bot.py lines 209-214): scan one title's
passages in order with 1-based numbering, append a rendered hit for each
case-insensitive substring match, and stop as soon as five total results
have been collected. -/
def searchInner (q title : Str) : List Str → Nat → List Str → List Str
  | [], _, acc => acc
  | p :: rest, i, acc =>
    if pyContains (pyLower p) (pyLower q) then
      let acc' := acc ++ [renderMatch title i p]
      if 5 ≤ acc'.length then acc' else searchInner q title rest (i + 1) acc'
    else searchInner q title rest (i + 1) acc

/-- The outer loop of `search` (bot.py lines 207-216): scan the Gutenberg
titles in catalog order, resolving each through `get_passages`, and stop
once five results are collected. -/
def searchLoop (env : Env) (q : Str) :
    List Str → Sys → List Str → Sys × Except PyErr (List Str)
  | [], s, acc => (s, .ok acc)
  | t :: rest, s, acc =>
    match get_passages env s t with
    | (s', .ok ps) =>
      let acc' := searchInner q t ps 1 acc
      if 5 ≤ acc'.length then (s', .ok acc')
      else searchLoop env q rest s' acc'
    | (s', .error e) => (s', .error e)

/-- `search` (bot.py lines 203-220), returning the collected result list
(the host joins it with blank lines, or reports no matches when empty). -/
def search (env : Env) (s : Sys) (q : Str) : Sys × Except PyErr (List Str) :=
  searchLoop env q (GUTENBERG_TEXTS.map Prod.fst) s []

/-- Modelled from the spec (the uncapped reading of Search against which the
implementation is compared): every case-insensitive substring match over the
Local-provenance titles in catalog order, passages in order, each rendered
as in the implementation, with no five-result cap. -/
def searchMatches (q title : Str) : List Str → Nat → List Str
  | [], _ => []
  | p :: rest, i =>
    (if pyContains (pyLower p) (pyLower q) then [renderMatch title i p] else [])
      ++ searchMatches q title rest (i + 1)

/-- Modelled from the spec: the uncapped scan over a title list, resolving
titles exactly as the implementation does. -/
def searchSpecLoop (env : Env) (q : Str) : List Str → Sys → List Str
  | [], _ => []
  | t :: rest, s =>
    let r := get_passages env s t
    searchMatches q t (match r.2 with | .ok ps => ps | .error _ => []) 1
      ++ searchSpecLoop env q rest r.1

/-- Modelled from the spec: all matches of a query across the local titles,
in catalog-then-passage order, uncapped. -/
def searchSpec (env : Env) (s : Sys) (q : Str) : List Str :=
  searchSpecLoop env q (GUTENBERG_TEXTS.map Prod.fst) s

/-- A demo world: every flat-file URL serves a two-paragraph body, every API
call fails with a transport error. -/
def envG : Env :=
  ⟨fun _ => "Alpha beta.\n\nGamma delta.".toList, fun _ => .error .netError⟩

/-- A world whose flat-file bodies are empty (so every Gutenberg title
resolves to zero passages) and whose API calls fail with a transport
error. -/
def envNetFail : Env := ⟨fun _ => [], fun _ => .error .netError⟩

/-- A world whose API calls all return the empty JSON object `\x7b\x7d` and
whose flat-file bodies are empty. -/
def envObjEmpty : Env := ⟨fun _ => [], fun _ => .ok (.obj [])⟩

/-- A world where the Dhammapada download is the single short paragraph
`"hello world"` and the other flat files are empty. -/
def envHello : Env :=
  ⟨fun u => if u = "https://www.gutenberg.org/files/159/159-0.txt".toList
            then "hello world".toList else [],
   fun _ => .error .netError⟩

/-- The state after resolving "Dhammapada" from scratch in `envG`. -/
def sysDham : Sys :=
  ⟨[("Dhammapada".toList,
      ⟨"local".toList, ["Alpha beta.".toList, "Gamma delta.".toList]⟩)],
   [("Dhammapada".toList,
      ⟨"Dhammapada".toList, ["Alpha beta.".toList, "Gamma delta.".toList]⟩)],
   1, 0⟩

/-- The state after resolving "KJV" from scratch in `envObjEmpty`: the title
is cached with an empty passage list after one network call. -/
def sysKJV : Sys := ⟨[("KJV".toList, ⟨"api".toList, []⟩)], [], 1, 0⟩

/-- A world where every flat-file download has six short paragraphs, all
containing the letter x - eighteen search matches across the three local
titles. -/
def envSix : Env :=
  ⟨fun _ => "xa a\n\nxb b\n\nxc c\n\nxd d\n\nxe e\n\nxf f".toList,
   fun _ => .error .netError⟩

/-! Helper lemmas about the embedded primitives. -/

/-- Looking up the key just written by a dict assignment. -/
theorem alookup_dictSet_self (l : List (Str × α)) (k : Str) (v : α) :
    alookup k (dictSet l k v) = some v := by
  induction l with
  | nil => simp [dictSet, alookup]
  | cons hd t ih =>
    obtain ⟨k', v'⟩ := hd
    by_cases hk : k' = k <;> simp [dictSet, alookup, hk, ih]

/-- Stripping a string removes characters only. -/
theorem pyStrip_sublist (l : Str) : List.Sublist (pyStrip l) l := by
  have h1 : List.Sublist (l.dropWhile isWS) l := List.dropWhile_sublist isWS
  have h2 : List.Sublist ((l.dropWhile isWS).reverse.dropWhile isWS)
      (l.dropWhile isWS).reverse := List.dropWhile_sublist isWS
  have h3 := h2.reverse
  simp only [List.reverse_reverse] at h3
  exact h3.trans h1

/-- Dropping a whitespace prefix does not change the non-whitespace
characters. -/
theorem filter_dropWhile_isWS (l : Str) :
    (l.dropWhile isWS).filter (fun c => !isWS c) = l.filter (fun c => !isWS c) := by
  induction l with
  | nil => rfl
  | cons c t ih =>
    by_cases hc : isWS c = true
    · simp [List.dropWhile, List.filter, hc, ih]
    · simp [List.dropWhile, List.filter, hc]

/-- Stripping a string does not change its non-whitespace characters. -/
theorem pyStrip_filter (l : Str) :
    (pyStrip l).filter (fun c => !isWS c) = l.filter (fun c => !isWS c) := by
  unfold pyStrip
  rw [List.filter_reverse, filter_dropWhile_isWS, List.filter_reverse,
    List.reverse_reverse, filter_dropWhile_isWS]

/-- The last-space index lies inside the string. -/
theorem lastSpaceIdx_lt (l : Str) (j : Nat) (h : lastSpaceIdx l = some j) :
    j < l.length := by
  induction l generalizing j with
  | nil => simp [lastSpaceIdx] at h
  | cons c t ih =>
    unfold lastSpaceIdx at h
    cases hr : lastSpaceIdx t with
    | some j' =>
      rw [hr] at h
      cases h
      exact Nat.succ_lt_succ (ih j' hr)
    | none =>
      rw [hr] at h
      by_cases hc : c = ' '
      · rw [if_pos hc] at h
        cases h
        simp
      · rw [if_neg hc] at h
        cases h

/-- A found cut position lies in the window `[a, b)`. -/
theorem rfindSpace_bounds (l : Str) (a b sp : Nat) (h : rfindSpace l a b = some sp) :
    a ≤ sp ∧ sp < b := by
  unfold rfindSpace at h
  cases hj : lastSpaceIdx (sliceChars l a b) with
  | none => rw [hj] at h; cases h
  | some j =>
    rw [hj] at h
    cases h
    have hlt := lastSpaceIdx_lt _ _ hj
    have hlen : (sliceChars l a b).length ≤ b - a := by
      unfold sliceChars
      simp
    omega

/-- Splitting a slice off the front of a suffix. -/
theorem slice_append_drop (l : Str) (a b : Nat) (hab : a ≤ b) :
    sliceChars l a b ++ l.drop b = l.drop a := by
  unfold sliceChars
  have hd : l.drop b = (l.drop a).drop (b - a) := by
    rw [List.drop_drop]
    congr 1
    omega
  rw [hd, List.take_append_drop]

/-- Invariant of the chunking loop: a successful run appends, after the
accumulator, pieces whose concatenation is the suffix from the cursor with
only whitespace characters deleted. -/
theorem splitGo_preserves (text : Str) (maxLen : Nat) :
    ∀ fuel start acc pieces, splitGo text maxLen fuel start acc = some pieces →
      ∃ rest, pieces = acc ++ rest ∧
        List.Sublist rest.flatten (text.drop start) ∧
        rest.flatten.filter (fun c => !isWS c) =
          (text.drop start).filter (fun c => !isWS c) := by
  intro fuel
  induction fuel with
  | zero => intro start acc pieces h; cases h
  | succ n ih =>
    intro start acc pieces h
    unfold splitGo at h
    by_cases hs : start < text.length
    · rw [if_pos hs] at h
      by_cases he : start + maxLen < text.length
      · rw [if_pos he] at h
        obtain ⟨rest', hpieces, hsub, hfil⟩ := ih _ _ _ h
        have hle : start ≤ (rfindSpace text start (start + maxLen)).getD (start + maxLen) := by
          cases hr : rfindSpace text start (start + maxLen) with
          | none => simp [hr]
          | some j =>
            have hb := rfindSpace_bounds text start (start + maxLen) j hr
            simp [hr]
            omega
        set sp := (rfindSpace text start (start + maxLen)).getD (start + maxLen) with hspdef
        have hdec := slice_append_drop text start sp hle
        refine ⟨pyStrip (sliceChars text start sp) :: rest', ?_, ?_, ?_⟩
        · rw [hpieces, List.append_assoc]
          rfl
        · rw [List.flatten_cons, ← hdec]
          exact List.Sublist.append (pyStrip_sublist _) hsub
        · rw [List.flatten_cons, List.filter_append, pyStrip_filter, hfil, ← List.filter_append,
            hdec]
      · rw [if_neg he] at h
        cases h
        refine ⟨[pyStrip (text.drop start)], rfl, ?_, ?_⟩
        · rw [List.flatten_cons, List.flatten_nil, List.append_nil]
          exact pyStrip_sublist _
        · rw [List.flatten_cons, List.flatten_nil, List.append_nil]
          exact pyStrip_filter _
    · rw [if_neg hs] at h
      cases h
      have hnil : text.drop start = [] := List.drop_eq_nil_of_le (by omega)
      exact ⟨[], by simp, by simp [hnil], by simp [hnil]⟩

/-- C4 — the chunker drops no non-whitespace character: whenever
`split_into_chunks` returns, the concatenation of the returned pieces is the
input with only whitespace characters (those trimmed at the induced cut
points) deleted, so it reconstructs the input up to that whitespace. -/
theorem chunker_preserves_text (text : Str) (maxLen : Nat) (pieces : List Str)
    (_hm : 1 ≤ maxLen) (h : split_into_chunks text maxLen = some pieces) :
    List.Sublist pieces.flatten text ∧
    pieces.flatten.filter (fun c => !isWS c) = text.filter (fun c => !isWS c) := by
  unfold split_into_chunks at h
  by_cases hlen : text.length ≤ maxLen
  · rw [if_pos hlen] at h
    cases h
    constructor
    · rw [List.flatten_cons, List.flatten_nil, List.append_nil]
    · rw [List.flatten_cons, List.flatten_nil, List.append_nil]
  · rw [if_neg hlen] at h
    obtain ⟨rest, hpieces, hsub, hfil⟩ := splitGo_preserves text maxLen _ 0 [] pieces h
    rw [List.nil_append] at hpieces
    subst hpieces
    rw [List.drop_zero] at hsub hfil
    exact ⟨hsub, hfil⟩

/-- Witness for C4 at a concrete input: `split("hello world foo", 8)`
returns `["hello", "world", "foo"]`, whose concatenation is the input with
only the two cut spaces deleted. -/
theorem chunker_preserves_text_witness :
    List.Sublist (["hello".toList, "world".toList, "foo".toList] : List Str).flatten
      ("hello world foo".toList) ∧
    (["hello".toList, "world".toList, "foo".toList] : List Str).flatten.filter
        (fun c => !isWS c) =
      ("hello world foo".toList).filter (fun c => !isWS c) :=
  chunker_preserves_text ("hello world foo".toList) 8
    ["hello".toList, "world".toList, "foo".toList] (by decide) (by decide)

/-- C2 — refuted: on `split_into_chunks("abcd efghij", 5)` the only space of
the second window sits exactly at the cursor (position 4), so the cut
position equals the cursor, the cursor never advances again, and the Python
loop never terminates (every fuel bound is exhausted from the stuck
cursor). -/
theorem chunker_stuck_cursor :
    rfindSpace ("abcd efghij".toList) 4 9 = some 4 ∧
    (∀ fuel acc, splitGo ("abcd efghij".toList) 5 fuel 4 acc = none) ∧
    split_into_chunks ("abcd efghij".toList) 5 = none := by
  have hstep : ∀ fuel acc, splitGo ("abcd efghij".toList) 5 fuel 4 acc = none := by
    intro fuel
    induction fuel with
    | zero => intro acc; rfl
    | succ n ih =>
      intro acc
      have h1 : (4 : Nat) < ("abcd efghij".toList).length := by decide
      have h2 : (4 + 5 : Nat) < ("abcd efghij".toList).length := by decide
      have hr : (rfindSpace ("abcd efghij".toList) 4 (4 + 5)).getD (4 + 5) = 4 := by decide
      unfold splitGo
      rw [if_pos h1, if_pos h2, hr]
      exact ih _
  exact ⟨by decide, hstep, by decide⟩

/-- C3 — refuted: `split_into_chunks("  abc", 4)` terminates and returns
`["", "abc"]` — its first returned piece is the empty string although the
input is non-empty (and `maxLen = 4 ≥ 1`). -/
theorem chunker_empty_piece :
    split_into_chunks ("  abc".toList) 4 = some [[], "abc".toList] ∧
    ([] : Str) ∈ [([] : Str), "abc".toList] ∧
    ("  abc".toList ≠ ([] : Str)) ∧ (1 : Nat) ≤ 4 := by
  refine ⟨by decide, ?_, by decide, by decide⟩
  simp

/-- C1 — refuted at the boundary: "Dhammapada" is a known title, yet when
its resolution yields zero passages (an empty download), `quote` with
`n = 0` reports the not-found outcome, not the out-of-range outcome the
claim requires for `n < 1`. -/
theorem quote_zero_on_empty_title_cex :
    (alookup ("Dhammapada".toList) GUTENBERG_TEXTS).isSome = true ∧
    (quote envNetFail sys0 ("Dhammapada".toList) 0).2 = .ok .notFound ∧
    QuoteOutcome.notFound ≠ QuoteOutcome.outOfRange :=
  ⟨rfl, rfl, by decide⟩

/-- C1 (amended) — quote classification: an unknown title yields the
not-found outcome; given a resolved passage list, an empty list yields
not-found (even for a known title and even when `n < 1`), a non-empty list
yields out-of-range exactly when `n < 1` or `n > count`, and for
`1 ≤ n ≤ count` the passage `passages[n-1]` is selected and sent chunked. -/
theorem quote_classification (env : Env) (s : Sys) (title : Str) (n : Int) :
    (alookup (pyStrip title) s.texts = none →
     alookup (pyStrip title) GUTENBERG_TEXTS = none →
     alookup (pyStrip title) API_TEXTS = none →
     quote env s title n = (s, .ok .notFound)) ∧
    (∀ s' ps, get_passages env s title = (s', .ok ps) →
      (ps = [] → quote env s title n = (s', .ok .notFound)) ∧
      (ps ≠ [] →
        ((n < 1 ∨ (ps.length : Int) < n) →
          quote env s title n = (s', .ok .outOfRange)) ∧
        (1 ≤ n → n ≤ (ps.length : Int) →
          quote env s title n = (s', .ok (.sent (sendChunks title (intStr n)
            (ps.getD ((n - 1).toNat) []))))))) := by
  constructor
  · intro h1 h2 h3
    have hgp : get_passages env s title = (s, .ok []) := by
      simp only [get_passages, h1, h2, h3]
    simp [quote, hgp]
  · intro s' ps hgp
    refine ⟨?_, ?_⟩
    · intro hps
      subst hps
      simp [quote, hgp]
    · intro hps
      refine ⟨?_, ?_⟩
      · intro hor
        simp only [quote, hgp]
        rw [if_neg hps, if_pos hor]
      · intro hn1 hn2
        simp only [quote, hgp]
        rw [if_neg hps, if_neg (by omega : ¬(n < 1 ∨ (ps.length : Int) < n))]

/-- Witness for C1 (amended): a successful in-range quote on a freshly
resolved title, and a not-found quote for an unknown title. -/
theorem quote_classification_witness :
    quote envG sys0 ("Dhammapada".toList) 1 =
      (sysDham, .ok (.sent (sendChunks ("Dhammapada".toList) (intStr 1)
        ((["Alpha beta.".toList, "Gamma delta.".toList] : List Str).getD
          ((1 - 1 : Int).toNat) [])))) ∧
    quote envG sys0 ("Unknown Title".toList) 1 = (sys0, .ok .notFound) :=
  ⟨(((quote_classification envG sys0 ("Dhammapada".toList) 1).2 sysDham
      ["Alpha beta.".toList, "Gamma delta.".toList] rfl).2 (by decide)).2
      (by decide) (by decide),
   (quote_classification envG sys0 ("Unknown Title".toList) 1).1 rfl rfl rfl⟩

/-- C10 — with no title argument `random_passage` draws a title and indexes
its passage list with no emptiness check, so a chosen title resolving to
zero passages raises `ValueError` from `random.randrange(0)`; with an
explicit title argument the same situation is guarded and reported as
not-found. -/
theorem random_passage_no_empty_check (env : Env) (s : Sys) (seedT seedI : Nat) :
    (∀ s', get_passages env s (rpChoice seedT) = (s', .ok []) →
      random_passage env s none seedT seedI = (s', .error .valueError)) ∧
    (∀ t s', t ≠ [] → get_passages env s t = (s', .ok []) →
      random_passage env s (some t) seedT seedI = (s', .ok .notFound)) := by
  constructor
  · intro s' h
    simp [random_passage, h, randrange]
  · intro t s' ht h
    simp [random_passage, ht, h]

/-- Witness for C10: in a world where every API call returns the empty JSON
object, the title drawn by seed 4 is "KJV", which resolves to zero passages:
the title-less call raises `ValueError` while the explicit-title call
reports not-found. -/
theorem random_passage_no_empty_check_witness :
    random_passage envObjEmpty sys0 none 4 0 = (sysKJV, .error .valueError) ∧
    random_passage envObjEmpty sys0 (some ("KJV".toList)) 4 0 =
      (sysKJV, .ok .notFound) :=
  ⟨(random_passage_no_empty_check envObjEmpty sys0 4 0).1 sysKJV rfl,
   (random_passage_no_empty_check envObjEmpty sys0 4 0).2 ("KJV".toList) sysKJV
     (by decide) rfl⟩

/-- The flat-file adapter touches only the disk cache and the counters,
performing at most one network GET and at most one cache read. -/
theorem fetch_gutenberg_state (env : Env) (s : Sys) (title url : Str) :
    (fetch_gutenberg env s title url).1.texts = s.texts ∧
    (fetch_gutenberg env s title url).1.fetches ≤ s.fetches + 1 ∧
    (fetch_gutenberg env s title url).1.diskReads ≤ s.diskReads + 1 := by
  unfold fetch_gutenberg
  cases alookup (underscoreKey title) s.disk <;> simp

/-- The API adapter touches only the fetch counter, performing at most one
network GET and no catalog or disk access. -/
theorem fetch_api_state (env : Env) (s : Sys) (t : Str) :
    (fetch_api_text env s t).1.texts = s.texts ∧
    (fetch_api_text env s t).1.disk = s.disk ∧
    (fetch_api_text env s t).1.fetches ≤ s.fetches + 1 ∧
    (fetch_api_text env s t).1.diskReads = s.diskReads := by
  unfold fetch_api_text
  split_ifs <;> simp

/-- C5 — resolution is idempotent within a process: when a known title
resolves successfully, resolving it again returns the value-equal passage
list and leaves the state unchanged (no adapter call, no disk read), and the
two calls together issue at most one network GET and at most one disk read
beyond the starting state. -/
theorem resolve_idempotent (env : Env) (s : Sys) (title : Str) (s1 : Sys)
    (p1 : List Str)
    (hknown : (alookup (pyStrip title) GUTENBERG_TEXTS).isSome = true ∨
              (alookup (pyStrip title) API_TEXTS).isSome = true)
    (h : get_passages env s title = (s1, .ok p1)) :
    get_passages env s1 title = (s1, .ok p1) ∧
    s1.fetches ≤ s.fetches + 1 ∧ s1.diskReads ≤ s.diskReads + 1 := by
  simp only [get_passages] at h ⊢
  cases htex : alookup (pyStrip title) s.texts with
  | some entry =>
    simp only [htex] at h
    injection h with hA hB
    injection hB with hB
    subst hA
    subst hB
    refine ⟨by simp only [htex], by omega, by omega⟩
  | none =>
    cases hG : alookup (pyStrip title) GUTENBERG_TEXTS with
    | some url =>
      simp only [htex, hG] at h
      injection h with hA hB
      injection hB with hB
      subst hA
      subst hB
      have hst := fetch_gutenberg_state env s (pyStrip title) url
      refine ⟨?_, ?_, ?_⟩
      · simp only [alookup_dictSet_self]
      · exact hst.2.1
      · exact hst.2.2
    | none =>
      cases hA : alookup (pyStrip title) API_TEXTS with
      | none =>
        rcases hknown with hk | hk
        · rw [hG] at hk
          cases hk
        · rw [hA] at hk
          cases hk
      | some prov =>
        cases hr : (fetch_api_text env s (pyStrip title)).2 with
        | error e =>
          simp only [htex, hG, hA, hr] at h
          injection h with hA' hB
          injection hB
        | ok res =>
          simp only [htex, hG, hA, hr] at h
          injection h with hA' hB
          injection hB with hB
          subst hA'
          subst hB
          have hst := fetch_api_state env s (pyStrip title)
          refine ⟨?_, ?_, ?_⟩
          · simp only [alookup_dictSet_self]
          · exact hst.2.2.1
          · simp [hst.2.2.2]

/-- Witness for C5: resolving "Dhammapada" twice from the empty state in
`envG` — the first call fetched once, the second changes nothing. -/
theorem resolve_idempotent_witness :
    get_passages envG sysDham ("Dhammapada".toList) =
      (sysDham, .ok ["Alpha beta.".toList, "Gamma delta.".toList]) ∧
    sysDham.fetches ≤ sys0.fetches + 1 ∧ sysDham.diskReads ≤ sys0.diskReads + 1 :=
  resolve_idempotent envG sys0 ("Dhammapada".toList) sysDham
    ["Alpha beta.".toList, "Gamma delta.".toList] (Or.inl (by decide)) rfl

/-- C6 — persistence round-trip: once a Gutenberg title has been resolved
from a state where it was not yet in the catalog, its disk record (keyed by
the title with spaces replaced by underscores, holding the title and the
passage list) satisfies any re-resolution: clearing the in-memory catalog
and resolving again returns the identical passage list with no further
network GET. -/
theorem persistence_round_trip (env : Env) (s : Sys) (title url : Str)
    (hstrip : pyStrip title = title)
    (hG : alookup title GUTENBERG_TEXTS = some url)
    (htex : alookup title s.texts = none) :
    (get_passages env { (get_passages env s title).1 with texts := [] } title).2 =
      (get_passages env s title).2 ∧
    (get_passages env { (get_passages env s title).1 with texts := [] } title).1.fetches =
      (get_passages env s title).1.fetches ∧
    ∃ rec, alookup (underscoreKey title) (get_passages env s title).1.disk = some rec ∧
      (get_passages env s title).2 = .ok rec.passages := by
  simp only [get_passages, hstrip, htex, hG]
  cases hd : alookup (underscoreKey title) s.disk with
  | some rec =>
    simp only [fetch_gutenberg, hd]
    simp [alookup, hG, fetch_gutenberg, hd]
  | none =>
    simp only [fetch_gutenberg, hd]
    simp [alookup, hG, fetch_gutenberg, alookup_dictSet_self]

/-- Witness for C6: the Dhammapada round-trip through the disk cache in
`envG`, starting from the empty state. -/
theorem persistence_round_trip_witness :
    (get_passages envG
        { (get_passages envG sys0 ("Dhammapada".toList)).1 with texts := [] }
        ("Dhammapada".toList)).2 =
      (get_passages envG sys0 ("Dhammapada".toList)).2 ∧
    (get_passages envG
        { (get_passages envG sys0 ("Dhammapada".toList)).1 with texts := [] }
        ("Dhammapada".toList)).1.fetches =
      (get_passages envG sys0 ("Dhammapada".toList)).1.fetches ∧
    ∃ rec, alookup (underscoreKey ("Dhammapada".toList))
        (get_passages envG sys0 ("Dhammapada".toList)).1.disk = some rec ∧
      (get_passages envG sys0 ("Dhammapada".toList)).2 = .ok rec.passages :=
  persistence_round_trip envG sys0 ("Dhammapada".toList) _ (by decide) rfl rfl

/-- The inner search loop collects, after the accumulator, exactly the next
matches of the scanned title up to the global five-result cap. -/
theorem searchInner_take (q t : Str) :
    ∀ ps i acc, acc.length < 5 →
      searchInner q t ps i acc =
        acc ++ (searchMatches q t ps i).take (5 - acc.length) := by
  intro ps
  induction ps with
  | nil => intro i acc hacc; simp [searchInner, searchMatches]
  | cons p rest ih =>
    intro i acc hacc
    by_cases hm : pyContains (pyLower p) (pyLower q) = true
    · by_cases h5 : 5 ≤ (acc ++ [renderMatch t i p]).length
      · have hlen : acc.length = 4 := by
          simp at h5
          omega
        simp only [searchInner, searchMatches, hm, if_true, if_pos h5]
        simp [hlen, List.take_succ_cons]
      · have hlt : (acc ++ [renderMatch t i p]).length < 5 := by omega
        simp only [searchInner, searchMatches, hm, if_true, if_neg h5]
        rw [ih (i + 1) _ hlt]
        have harith : 5 - acc.length = (5 - (acc ++ [renderMatch t i p]).length) + 1 := by
          simp at hlt ⊢
          omega
        rw [harith, List.singleton_append, List.take_succ_cons]
        simp
    · simp only [searchInner, searchMatches, hm, if_false, Bool.false_eq_true]
      rw [ih (i + 1) acc hacc]
      simp

/-- The outer search loop returns, after the accumulator, the first matches
of the uncapped spec-side scan up to the global five-result cap, provided
every scanned title resolves successfully. -/
theorem searchLoop_take (env : Env) (q : Str) :
    ∀ titles s acc,
      (∀ t ∈ titles, ∀ s₀ : Sys, ∃ s' ps, get_passages env s₀ t = (s', .ok ps)) →
      acc.length < 5 →
      (searchLoop env q titles s acc).2 =
        .ok (acc ++ (searchSpecLoop env q titles s).take (5 - acc.length)) := by
  intro titles
  induction titles with
  | nil => intro s acc hok hacc; simp [searchLoop, searchSpecLoop]
  | cons t rest ih =>
    intro s acc hok hacc
    obtain ⟨s', ps, hgp⟩ := hok t (List.mem_cons_self t rest) s
    simp only [searchLoop, searchSpecLoop, hgp]
    rw [searchInner_take q t ps 1 acc hacc]
    set m := searchMatches q t ps 1 with hmdef
    by_cases h5 : 5 ≤ (acc ++ m.take (5 - acc.length)).length
    · rw [if_pos h5]
      have hm5 : 5 - acc.length ≤ m.length := by
        simp [List.length_take] at h5
        omega
      rw [List.take_append_eq_append_take]
      have hz : (5 - acc.length) - m.length = 0 := by omega
      rw [hz, List.take_zero, List.append_nil]
    · rw [if_neg h5]
      have hlt : (acc ++ m.take (5 - acc.length)).length < 5 := by omega
      rw [ih s' _ (fun t' ht' s₀ => hok t' (List.mem_cons_of_mem _ ht') s₀) hlt]
      have hmlt : m.length < 5 - acc.length := by
        simp [List.length_take] at hlt
        omega
      have h1 : m.take (5 - acc.length) = m := List.take_of_length_le (by omega)
      rw [List.take_append_eq_append_take, h1]
      have h3 : 5 - (acc ++ m).length = (5 - acc.length) - m.length := by
        simp
        omega
      rw [h3, List.append_assoc]

/-- Resolving a Gutenberg title never raises. -/
theorem gp_ok_of_gutenberg (env : Env) (s : Sys) (t url : Str)
    (hstrip : pyStrip t = t) (hG : alookup t GUTENBERG_TEXTS = some url) :
    ∃ s' ps, get_passages env s t = (s', .ok ps) := by
  cases htex : alookup t s.texts with
  | some e => exact ⟨s, e.passages, by simp only [get_passages, hstrip, htex]⟩
  | none =>
    refine ⟨{ (fetch_gutenberg env s t url).1 with
        texts := dictSet (fetch_gutenberg env s t url).1.texts t
          ⟨"local".toList, (fetch_gutenberg env s t url).2⟩ },
      (fetch_gutenberg env s t url).2, ?_⟩
    simp only [get_passages, hstrip, htex, hG]

/-- Every title scanned by `search` resolves successfully. -/
theorem gp_local_ok (env : Env) (t : Str) (ht : t ∈ GUTENBERG_TEXTS.map Prod.fst) :
    ∀ s : Sys, ∃ s' ps, get_passages env s t = (s', .ok ps) := by
  intro s
  simp only [GUTENBERG_TEXTS, List.map, List.mem_cons, List.not_mem_nil, or_false] at ht
  rcases ht with h | h | h <;> subst h
  · exact gp_ok_of_gutenberg env s _ _ (by decide) rfl
  · exact gp_ok_of_gutenberg env s _ _ (by decide) rfl
  · exact gp_ok_of_gutenberg env s _ _ (by decide) rfl

/-- C7 — the search cap is global: the implementation returns exactly the
first five (or fewer) rendered matches of the case-insensitive scan over the
Local-provenance titles in catalog order with passages in order; in
particular any query with more than five matches across all local titles
yields exactly five results, in catalog-then-passage order. -/
theorem search_five_cap (env : Env) (s : Sys) (q : Str) :
    (search env s q).2 = .ok ((searchSpec env s q).take 5) ∧
    (5 < (searchSpec env s q).length →
      ∃ r, (search env s q).2 = .ok r ∧ r.length = 5) := by
  have h := searchLoop_take env q (GUTENBERG_TEXTS.map Prod.fst) s []
    (fun t ht s₀ => gp_local_ok env t ht s₀) (by decide)
  constructor
  · simpa [search, searchSpec] using h
  · intro hlen
    refine ⟨(searchSpec env s q).take 5, ?_, ?_⟩
    · simpa [search, searchSpec] using h
    · simp [List.length_take]
      omega

/-- Rsplit keeps the whole string when it has no space. -/
theorem rsplitHead1_no_space (l : Str) (h : ' ' ∉ l) : rsplitHead1 l = l := by
  unfold rsplitHead1
  have hd : l.reverse.dropWhile (fun c => decide (c ≠ ' ')) = [] := by
    rw [List.dropWhile_eq_nil_iff]
    intro x hx
    have hxl : x ∈ l := by simpa using hx
    simp only [decide_eq_true_eq]
    intro hxe
    exact h (hxe ▸ hxl)
  rw [hd]

/-- The first element surviving a `dropWhile` fails the predicate. -/
theorem dropWhile_head_false {α : Type} {p : α → Bool} :
    ∀ (l : List α) (c : α) (d : List α), l.dropWhile p = c :: d → p c = false := by
  intro l
  induction l with
  | nil => intro c d h; cases h
  | cons a t ih =>
    intro c d h
    by_cases hp : p a
    · rw [List.dropWhile_cons_of_pos hp] at h
      exact ih c d h
    · rw [List.dropWhile_cons_of_neg hp] at h
      injection h with h1 h2
      subst h1
      simpa using hp

/-- Rsplit on a string containing a space drops exactly its last space and
the space-free word after it. -/
theorem rsplitHead1_space (l : Str) (h : ' ' ∈ l) :
    ∃ w, rsplitHead1 l ++ ' ' :: w = l ∧ ' ' ∉ w := by
  cases hd : l.reverse.dropWhile (fun c => decide (c ≠ ' ')) with
  | nil =>
    exfalso
    rw [List.dropWhile_eq_nil_iff] at hd
    have h' : (' ' : Char) ∈ l.reverse := by simpa using h
    have := hd ' ' h'
    simp at this
  | cons c d =>
    have hc : c = ' ' := by
      have := dropWhile_head_false _ c d hd
      simpa using this
    subst hc
    have hr : rsplitHead1 l = d.reverse := by
      unfold rsplitHead1
      rw [hd]
    refine ⟨(l.reverse.takeWhile (fun c => decide (c ≠ ' '))).reverse, ?_, ?_⟩
    · rw [hr]
      have hsplit := List.takeWhile_append_dropWhile
        (p := fun c => decide (c ≠ ' ')) (l := l.reverse)
      rw [hd] at hsplit
      have h2 := congrArg List.reverse hsplit
      rw [List.reverse_append, List.reverse_cons, List.reverse_reverse] at h2
      conv_rhs => rw [← h2]
      rw [List.append_assoc, List.singleton_append]
    · intro hw
      have hmem : (' ' : Char) ∈ l.reverse.takeWhile (fun c => decide (c ≠ ' ')) := by
        simpa using hw
      have := List.mem_takeWhile_imp hmem
      simp at this

/-- C8 (amended) — the snippet of a matching passage is the first 300
characters with everything from their last space onward removed (the whole
prefix when it has no space), with a trailing ellipsis exactly when the
passage exceeds 300 characters; in particular a passage of at most 300
characters containing a space is NOT shown in full — its last
space-separated word is dropped. -/
theorem snippet_truncates (p : Str) :
    (p.length ≤ 300 →
      (' ' ∉ p → snippet p = p) ∧
      (' ' ∈ p → ∃ a w, p = a ++ ' ' :: w ∧ ' ' ∉ w ∧ snippet p = a)) ∧
    (300 < p.length →
      (' ' ∉ p.take 300 → snippet p = p.take 300 ++ "...".toList) ∧
      (' ' ∈ p.take 300 → ∃ a w, p.take 300 = a ++ ' ' :: w ∧ ' ' ∉ w ∧
        snippet p = a ++ "...".toList)) := by
  constructor
  · intro hlen
    have htake : p.take 300 = p := List.take_of_length_le hlen
    have hite : (if 300 < p.length then "...".toList else []) = [] :=
      if_neg (by omega)
    constructor
    · intro hns
      unfold snippet
      rw [htake, hite, rsplitHead1_no_space p hns, List.append_nil]
    · intro hsp
      obtain ⟨w, hw, hwns⟩ := rsplitHead1_space p hsp
      refine ⟨rsplitHead1 p, w, hw.symm, hwns, ?_⟩
      unfold snippet
      rw [htake, hite, List.append_nil]
  · intro hlen
    have hite : (if 300 < p.length then "...".toList else []) = "...".toList :=
      if_pos hlen
    constructor
    · intro hns
      unfold snippet
      rw [hite, rsplitHead1_no_space _ hns]
    · intro hsp
      obtain ⟨w, hw, hwns⟩ := rsplitHead1_space _ hsp
      refine ⟨rsplitHead1 (p.take 300), w, hw.symm, hwns, ?_⟩
      unfold snippet
      rw [hite]

/-- Witness for C8 (amended): the 11-character passage "hello world" is
rendered as just "hello" — its last word is dropped despite fitting the
300-character budget. -/
theorem snippet_truncates_witness :
    ∃ a w, "hello world".toList = a ++ ' ' :: w ∧ ' ' ∉ w ∧
      snippet ("hello world".toList) = a :=
  ((snippet_truncates ("hello world".toList)).1 (by decide)).2 (by decide)

/-- C8 — refuted: in a world where the Dhammapada text is the single
passage "hello world" (11 characters, well under 300), searching "hello"
renders the snippet "hello", not the full passage the claim promises for
passages of at most 300 characters. -/
theorem search_snippet_cex :
    (search envHello sys0 ("hello".toList)).2 =
      .ok ["**Dhammapada — Passage 1**\nhello".toList] ∧
    ("hello world".toList.length ≤ 300) ∧
    "**Dhammapada — Passage 1**\nhello".toList ≠
      "**Dhammapada — Passage 1**\nhello world".toList :=
  ⟨rfl, by decide, by decide⟩

/-- C9 — refuted: an adapter transport failure for "Quran (Pickthall)" does
not surface as a not-found result — the exception propagates out of `quote`
unhandled. -/
theorem api_failure_raises_cex :
    (quote envNetFail sys0 ("Quran (Pickthall)".toList) 1).2 = .error .netError ∧
    (quote envNetFail sys0 ("Quran (Pickthall)".toList) 1).2 ≠
      .ok QuoteOutcome.notFound :=
  ⟨rfl, fun h => Except.noConfusion h⟩

/-- Resolution of a known API title reaches the API adapter and propagates
its outcome: a successful mapping populates the catalog, a raised error
propagates. -/
theorem gp_api (env : Env) (s : Sys) (t prov : Str)
    (hstrip : pyStrip t = t) (htex : alookup t s.texts = none)
    (hG : alookup t GUTENBERG_TEXTS = none) (hA : alookup t API_TEXTS = some prov) :
    get_passages env s t =
      (match (fetch_api_text env s t).2 with
       | .ok res =>
         ({ (fetch_api_text env s t).1 with
              texts := dictSet (fetch_api_text env s t).1.texts t
                ⟨"api".toList, res.passages⟩ }, .ok res.passages)
       | .error e => ((fetch_api_text env s t).1, .error e)) := by
  simp only [get_passages, hstrip, htex, hG, hA]

/-- The adapter branch taken for "Quran (Pickthall)". -/
theorem fetch_api_quran (env : Env) (s : Sys) :
    fetch_api_text env s ("Quran (Pickthall)".toList) =
      ({ s with fetches := s.fetches + 1 },
       match env.apiResponse alquranUrl with
       | .error e => .error e
       | .ok data =>
         (quranPassages data).map (fun ps => ⟨"Quran (Pickthall)".toList, ps⟩)) := by
  unfold fetch_api_text
  rw [if_neg (by decide), if_neg (by decide), if_pos rfl]

/-- The adapter branch taken for "KJV". -/
theorem fetch_api_kjv (env : Env) (s : Sys) :
    fetch_api_text env s ("KJV".toList) =
      ({ s with fetches := s.fetches + 1 },
       match env.apiResponse bibleApiUrl with
       | .error e => .error e
       | .ok data =>
         (bibleVerses data).map (fun vs => ⟨"KJV".toList, vs⟩)) := by
  unfold fetch_api_text
  rw [if_pos (by decide)]

/-- Resolution of a known API title whose adapter mapping succeeds: the
catalog gains the mapped passage list. -/
theorem gp_api_ok (env : Env) (s : Sys) (t prov : Str)
    (hstrip : pyStrip t = t) (htex : alookup t s.texts = none)
    (hG : alookup t GUTENBERG_TEXTS = none) (hA : alookup t API_TEXTS = some prov)
    (res : ApiResult) (hfa : (fetch_api_text env s t).2 = .ok res) :
    get_passages env s t =
      ({ (fetch_api_text env s t).1 with
          texts := dictSet (fetch_api_text env s t).1.texts t
            ⟨"api".toList, res.passages⟩ }, .ok res.passages) := by
  rw [gp_api env s t prov hstrip htex hG hA, hfa]

/-- The caller-visible result of resolving a known API title is the mapped
passage list or the raised error. -/
theorem gp_api_snd (env : Env) (s : Sys) (t prov : Str)
    (hstrip : pyStrip t = t) (htex : alookup t s.texts = none)
    (hG : alookup t GUTENBERG_TEXTS = none) (hA : alookup t API_TEXTS = some prov) :
    (get_passages env s t).2 =
      (match (fetch_api_text env s t).2 with
       | .ok res => .ok res.passages
       | .error e => .error e) := by
  rw [gp_api env s t prov hstrip htex hG hA]
  cases (fetch_api_text env s t).2 <;> rfl

/-- The adapter outcome for "Quran (Pickthall)". -/
theorem fetch_api_quran_snd (env : Env) (s : Sys) :
    (fetch_api_text env s ("Quran (Pickthall)".toList)).2 =
      (match env.apiResponse alquranUrl with
       | .error e => .error e
       | .ok data =>
         (quranPassages data).map (fun ps => ⟨"Quran (Pickthall)".toList, ps⟩)) := by
  rw [fetch_api_quran]

/-- C9 (amended) — how adapter failures actually surface: a transport error
on the alquran fetch propagates as a raised exception, as does a response
missing the expected `data` field (`KeyError`); for the bible-api shape a
response missing `verses` is tolerated and yields an empty passage list,
which `quote` reports as not-found — but the title does enter the catalog,
cached with an empty passage sequence. -/
theorem api_failure_surface (env : Env) (s : Sys) (fs : List (Str × Json)) (n : Int) :
    (∀ e, alookup ("Quran (Pickthall)".toList) s.texts = none →
      env.apiResponse alquranUrl = .error e →
      (get_passages env s ("Quran (Pickthall)".toList)).2 = .error e) ∧
    (alookup ("Quran (Pickthall)".toList) s.texts = none →
      env.apiResponse alquranUrl = .ok (.obj fs) →
      alookup ("data".toList) fs = none →
      (get_passages env s ("Quran (Pickthall)".toList)).2 = .error .keyError) ∧
    (alookup ("KJV".toList) s.texts = none →
      env.apiResponse bibleApiUrl = .ok (.obj fs) →
      alookup ("verses".toList) fs = none →
      (get_passages env s ("KJV".toList)).2 = .ok [] ∧
      alookup ("KJV".toList) (get_passages env s ("KJV".toList)).1.texts =
        some ⟨"api".toList, []⟩ ∧
      (quote env s ("KJV".toList) n).2 = .ok .notFound) := by
  have hqstrip : pyStrip ("Quran (Pickthall)".toList) = "Quran (Pickthall)".toList := by
    decide
  have hkstrip : pyStrip ("KJV".toList) = "KJV".toList := by decide
  refine ⟨?_, ?_, ?_⟩
  · intro e htex hresp
    rw [gp_api_snd env s ("Quran (Pickthall)".toList) ("alquran".toList)
      hqstrip htex (by decide) (by decide), fetch_api_quran_snd, hresp]
  · intro htex hresp hdata
    have hjd : jsub (Json.obj fs) ("data".toList) = .error .keyError := by
      show (match alookup ("data".toList) fs with
        | some v => (Except.ok v : Except PyErr Json)
        | none => .error .keyError) = .error .keyError
      rw [hdata]
    have hqp : quranPassages (Json.obj fs) = .error .keyError := by
      unfold quranPassages
      rw [hjd]
      rfl
    rw [gp_api_snd env s ("Quran (Pickthall)".toList) ("alquran".toList)
      hqstrip htex (by decide) (by decide), fetch_api_quran_snd, hresp]
    show (match (quranPassages (Json.obj fs)).map
        (fun ps => (⟨"Quran (Pickthall)".toList, ps⟩ : ApiResult)) with
      | Except.ok res => Except.ok res.passages
      | Except.error e => (Except.error e : Except PyErr (List Str)))
      = .error .keyError
    rw [hqp]
    rfl
  · intro htex hresp hverses
    have hbv : bibleVerses (Json.obj fs) = .ok [] := by
      show (match alookup ("verses".toList) fs with
        | none => (Except.ok [] : Except PyErr (List Str))
        | some (.arr vs) =>
          vs.mapM (fun v => do
            let b ← jsub v ("book_name".toList)
            let c ← jsub v ("chapter".toList)
            let ve ← jsub v ("verse".toList)
            let t ← jsub v ("text".toList)
            pure (pyStr b ++ [' '] ++ pyStr c ++ [':'] ++ pyStr ve ++ [' '] ++ pyStr t))
        | some _ => .error .typeError) = .ok []
      rw [hverses]
    have hfa : (fetch_api_text env s ("KJV".toList)).2 = .ok ⟨"KJV".toList, []⟩ := by
      rw [fetch_api_kjv, hresp]
      show ((bibleVerses (Json.obj fs)).map
        (fun vs => (⟨"KJV".toList, vs⟩ : ApiResult))) = _
      rw [hbv]
      rfl
    have hgp := gp_api_ok env s ("KJV".toList) ("bible-api".toList)
      hkstrip htex (by decide) (by decide) ⟨"KJV".toList, []⟩ hfa
    refine ⟨by rw [hgp], ?_, ?_⟩
    · rw [hgp]
      exact alookup_dictSet_self _ _ _
    · cases hpair : get_passages env s ("KJV".toList) with
      | mk sr r =>
        have hr : r = .ok [] := by
          have hh := hpair.symm.trans hgp
          injection hh with h1 h2
        subst hr
        have hqn : quote env s ("KJV".toList) n = (sr, .ok .notFound) := by
          unfold quote
          rw [hpair]
          rfl
        rw [hqn]

/-- Witness for C9 (amended): each failure mode at a concrete world — a
transport error and a missing `data` field raise, a missing `verses` field
yields an empty, cached, not-found title. -/
theorem api_failure_surface_witness :
    (get_passages envNetFail sys0 ("Quran (Pickthall)".toList)).2 =
      .error .netError ∧
    (get_passages envObjEmpty sys0 ("Quran (Pickthall)".toList)).2 =
      .error .keyError ∧
    ((get_passages envObjEmpty sys0 ("KJV".toList)).2 = .ok [] ∧
     alookup ("KJV".toList) (get_passages envObjEmpty sys0 ("KJV".toList)).1.texts =
       some ⟨"api".toList, []⟩ ∧
     (quote envObjEmpty sys0 ("KJV".toList) 1).2 = .ok .notFound) :=
  ⟨(api_failure_surface envNetFail sys0 [] 1).1 .netError rfl rfl,
   (api_failure_surface envObjEmpty sys0 [] 1).2.1 rfl rfl rfl,
   (api_failure_surface envObjEmpty sys0 [] 1).2.2 rfl rfl rfl⟩

/-- Witness for C7: with eighteen matches available for the query "x",
`search` returns exactly five results. -/
theorem search_five_cap_witness :
    ∃ r, (search envSix sys0 ("x".toList)).2 = .ok r ∧ r.length = 5 :=
  (search_five_cap envSix sys0 ("x".toList)).2 (by decide)
